import Mathlib

/-!
Shallow embedding of the analysis layer of this repository
(src/nlp_processing.py), together with the frequency-based keyword
extractor described in the specification (section 4.1), which has no
implementation under src/.

External model calls (the HuggingFace sentiment pipeline, KeyBERT's
extract_keywords, the GiNZA analyzer, the KeyBERT constructor) are
modelled as function arguments returning Except: an error value stands
for a Python exception raised inside the call, and Option models Python
None for an unavailable model instance.  Streamlit message calls
(st.error, st.warning, st.info) only emit UI messages and never affect
return values, so they are omitted from the embedding.
-/

/-- Token record of spec section 3: text, lemma, pos and tag — exactly
four fields.  The field for the dict key named lemma is written lemma'
because that word is reserved here.  This type is both the record shape
produced by tag_pos_execution and the input of the frequency-based
keyword extractor. -/
structure TokenRecord where
  text : String
  lemma' : String
  pos : String
  tag : String
deriving DecidableEq, Repr

/-- The attributes of a GiNZA/spaCy token that tag_pos_execution reads
(text, lemma_, pos_, tag_), plus two further attributes (dep_, i)
recording that analyzer tokens carry more information than the four
attributes the code reads. -/
structure SpacyToken where
  text : String
  lemma_ : String
  pos_ : String
  tag_ : String
  dep_ : String
  i : Nat
deriving DecidableEq, Repr

/-- The argument bundle passed to KeyBERT's extract_keywords call inside
extract_keywords_text_execution (src/nlp_processing.py lines 92-99).
The float 0.7 of the source is embedded as the rational 7/10. -/
structure KeywordQuery where
  doc : String
  keyphrase_ngram_range : Nat × Nat
  stop_words : List String
  top_n : Nat
  use_mmr : Bool
  diversity : ℚ
deriving DecidableEq, Repr

/-- Model of Python's line.strip(): drop whitespace characters from both
ends of the string. -/
def strip (s : String) : String :=
  String.mk (((s.toList.dropWhile Char.isWhitespace).reverse.dropWhile Char.isWhitespace).reverse)

/-- default_stopwords of extract_keywords_text_execution
(src/nlp_processing.py line 85). -/
def default_stopwords : List String :=
  ["これ", "それ", "あれ", "この", "その", "あの", "私", "あなた", "彼", "彼女",
   "です", "ます", "ました", "する", "いる", "ある", "の", "は", "が", "を",
   "に", "へ", "と", "も", "や", "で"]

/-- default_stopwords_for_fallback of load_stopwords_from_file_definition
(src/nlp_processing.py line 128); textually the same list as
default_stopwords but a separate constant in the source. -/
def default_stopwords_for_fallback : List String :=
  ["これ", "それ", "あれ", "この", "その", "あの", "私", "あなた", "彼", "彼女",
   "です", "ます", "ました", "する", "いる", "ある", "の", "は", "が", "を",
   "に", "へ", "と", "も", "や", "で"]

/-- Outcome of opening and reading the stop-word file at a given path:
the list of its lines, FileNotFoundError, or any other read exception. -/
inductive FileReadResult where
  | found (lines : List String) : FileReadResult
  | notFound : FileReadResult
  | readError : FileReadResult
deriving DecidableEq, Repr

/-- load_stopwords_from_file_definition (src/nlp_processing.py lines
125-141): keep the stripped non-blank lines; if the file is missing,
unreadable, or has no non-blank line, return the fixed fallback list,
otherwise return the stripped lines deduplicated.  Python's
list(set(stopwords)) leaves the order unspecified; List.dedup is the
particular admissible order used by this embedding. -/
def load_stopwords_from_file_definition (file : FileReadResult) : List String :=
  match file with
  | .found lines =>
      let stopwords := (lines.filter (fun line => strip line != "")).map strip
      if stopwords.isEmpty then default_stopwords_for_fallback
      else stopwords.dedup
  | .notFound => default_stopwords_for_fallback
  | .readError => default_stopwords_for_fallback

/-- analyze_sentiment_execution (src/nlp_processing.py lines 66-76).
The pipeline call model_instance(text, return_all_scores=True) is the
function applied to the text and the flag true. -/
def analyze_sentiment_execution {ε ρ : Type} (text : String)
    (model_instance : Option (String → Bool → Except ε (List ρ))) : List ρ :=
  match model_instance with
  | none => []
  | some sentiment_analyzer =>
      match sentiment_analyzer text true with
      | .ok results => results
      | .error _ => []

/-- extract_keywords_text_execution (src/nlp_processing.py lines 78-103).
A None stopwords_list is replaced by default_stopwords; the text is given
the e5 instruction marker in front before being handed to the ranker. -/
def extract_keywords_text_execution {ε σ : Type} (text : String)
    (keybert_model_instance : Option (KeywordQuery → Except ε (List (String × σ))))
    (top_n : Nat) (ngram_range : Nat × Nat) (stopwords_list : Option (List String)) :
    List (String × σ) :=
  match keybert_model_instance with
  | none => []
  | some kw_model =>
      match kw_model
          { doc := "query: " ++ text
            keyphrase_ngram_range := ngram_range
            stop_words := stopwords_list.getD default_stopwords
            top_n := top_n
            use_mmr := true
            diversity := 7 / 10 } with
      | .ok keywords => keywords
      | .error _ => []

/-- A call of extract_keywords_text_execution that omits the optional
parameters, supplying the defaults declared in the source signature on
line 78: top_n=5, ngram_range=(1, 2), stopwords_list=None. -/
def extract_keywords_text_execution_with_defaults {ε σ : Type} (text : String)
    (keybert_model_instance : Option (KeywordQuery → Except ε (List (String × σ)))) :
    List (String × σ) :=
  extract_keywords_text_execution text keybert_model_instance 5 (1, 2) none

/-- tag_pos_execution (src/nlp_processing.py lines 105-123): one output
record per analyzer token, built from the token's text, lemma_, pos_ and
tag_ attributes, in analyzer order. -/
def tag_pos_execution {ε : Type} (text : String)
    (pos_model_instance : Option (String → Except ε (List SpacyToken))) : List TokenRecord :=
  match pos_model_instance with
  | none => []
  | some nlp =>
      match nlp text with
      | .ok doc =>
          doc.map (fun token =>
            { text := token.text, lemma' := token.lemma_, pos := token.pos_, tag := token.tag_ })
      | .error _ => []

/-- load_keybert_model_definition (src/nlp_processing.py lines 35-46).
The KeyBERT constructor is the function argument keyBERT; embedding-model
unavailability is the none case, a constructor exception the error case. -/
def load_keybert_model_definition {M K ε : Type} (keyBERT : M → Except ε K)
    (_embedding_model : Option M) : Option K :=
  match _embedding_model with
  | none => none
  | some m =>
      match keyBERT m with
      | .ok kw_model => some kw_model
      | .error _ => none

/-- Modelled from the spec: the coarse POS category of a token is the
first hyphen-delimited segment of its pos field (spec section 4.1); the
frequency-based keyword extractor this feeds is absent from src/. -/
def coarseCategory (pos : String) : String :=
  String.mk (pos.toList.takeWhile (fun ch => ch != '-'))

/-- Modelled from the spec: the surface texts, in input order, of the
tokens whose coarse category belongs to the allowed set (spec section
4.1); part of the frequency-based keyword extractor absent from src/. -/
def matchingTexts (tokens : List TokenRecord) (allowed : List String) : List String :=
  (tokens.filter (fun t => allowed.contains (coarseCategory t.pos))).map TokenRecord.text

/-- First-seen deduplication: each value keeps its earliest position. -/
def firstSeen : List String → List String
  | [] => []
  | x :: xs => x :: (firstSeen xs).filter (fun y => y != x)

/-- Modelled from the spec: ranking of the distinct values d by
descending occurrence count in texts, ties in the order of d — the
bucket of count c + 1 precedes all lower buckets (spec section 4.1);
part of the frequency-based keyword extractor absent from src/. -/
def rankedBuckets (d texts : List String) : Nat → List (String × Nat)
  | 0 => []
  | c + 1 =>
      ((d.filter (fun s => texts.count s == c + 1)).map (fun s => (s, c + 1))) ++
        rankedBuckets d texts c

/-- Modelled from the spec: the frequency-based keyword extractor of
spec section 4.1, absent from src/ — filter tokens by allowed coarse
category, count surface texts, rank distinct texts by descending count
with ties in first-seen order, and keep at most top_n pairs. -/
def extract_keywords_frequency (tokens : List TokenRecord) (allowed : List String)
    (top_n : Nat) : List (String × Nat) :=
  (rankedBuckets (firstSeen (matchingTexts tokens allowed)) (matchingTexts tokens allowed)
      (matchingTexts tokens allowed).length).take top_n

/-! Spec section 8 example scenarios for the frequency-based extractor. -/

example :
    extract_keywords_frequency
      [⟨"猫", "", "名詞-普通名詞", ""⟩, ⟨"猫", "", "名詞-普通名詞", ""⟩, ⟨"走る", "", "動詞", ""⟩]
      ["名詞"] 10 = [("猫", 2)] := by decide

example : extract_keywords_frequency [] ["名詞"] 10 = [] := by decide

example :
    extract_keywords_frequency [⟨"走る", "", "動詞", ""⟩, ⟨"速い", "", "形容詞", ""⟩]
      ["名詞"] 10 = [] := by decide

example :
    extract_keywords_frequency [⟨"A", "", "名詞", ""⟩, ⟨"B", "", "名詞", ""⟩] ["名詞"] 1 =
      [("A", 1)] := by decide

example :
    extract_keywords_frequency [⟨"A", "", "名詞", ""⟩, ⟨"B", "", "名詞", ""⟩] ["名詞"] 10 =
      [("A", 1), ("B", 1)] := by decide

/-! Ordering lemmas for the frequency-based extractor. -/

theorem firstSeen_nodup (l : List String) : (firstSeen l).Nodup := by
  induction l with
  | nil => simp [firstSeen]
  | cons x xs ih =>
      simp only [firstSeen]
      rw [List.nodup_cons]
      refine ⟨?_, ih.filter _⟩
      intro hx
      have hbe := (List.mem_filter.mp hx).2
      simp at hbe

theorem mem_firstSeen (a : String) (l : List String) : a ∈ firstSeen l ↔ a ∈ l := by
  induction l with
  | nil => simp [firstSeen]
  | cons x xs ih =>
      by_cases hax : a = x
      · subst hax; simp [firstSeen]
      · simp [firstSeen, List.mem_filter, hax, ih]

theorem firstSeen_pairwise_indexOf (l : List String) :
    (firstSeen l).Pairwise (fun a b => l.indexOf a < l.indexOf b) := by
  induction l with
  | nil => simp [firstSeen]
  | cons x xs ih =>
      simp only [firstSeen]
      rw [List.pairwise_cons]
      constructor
      · intro b hb
        have hbne : b ≠ x := by simpa using (List.mem_filter.mp hb).2
        rw [List.indexOf_cons_self, List.indexOf_cons_ne _ (Ne.symm hbne)]
        exact Nat.succ_pos _
      · refine (ih.filter _).imp_of_mem ?_
        intro a b ha hb hab
        have hane : a ≠ x := by simpa using (List.mem_filter.mp ha).2
        have hbne : b ≠ x := by simpa using (List.mem_filter.mp hb).2
        rw [List.indexOf_cons_ne _ (Ne.symm hane), List.indexOf_cons_ne _ (Ne.symm hbne)]
        exact Nat.succ_lt_succ hab

theorem rankedBuckets_snd_le (d texts : List String) :
    ∀ c, ∀ p ∈ rankedBuckets d texts c, p.2 ≤ c := by
  intro c
  induction c with
  | zero => simp [rankedBuckets]
  | succ c ih =>
      intro p hp
      simp only [rankedBuckets] at hp
      rcases List.mem_append.mp hp with hp | hp
      · rcases List.mem_map.mp hp with ⟨s, _, rfl⟩
        exact Nat.le_refl _
      · exact Nat.le_succ_of_le (ih p hp)

theorem rankedBuckets_pairwise (d texts : List String)
    (hd : d.Pairwise (fun a b => texts.indexOf a < texts.indexOf b)) (c : Nat) :
    (rankedBuckets d texts c).Pairwise
      (fun p q => q.2 ≤ p.2 ∧ (p.2 = q.2 → texts.indexOf p.1 < texts.indexOf q.1)) := by
  induction c with
  | zero => simp [rankedBuckets]
  | succ c ih =>
      simp only [rankedBuckets]
      rw [List.pairwise_append]
      refine ⟨?_, ih, ?_⟩
      · rw [List.pairwise_map]
        refine (hd.filter _).imp ?_
        intro a b hab
        exact ⟨Nat.le_refl _, fun _ => hab⟩
      · intro p hp q hq
        rcases List.mem_map.mp hp with ⟨s, _, rfl⟩
        have hq2 := rankedBuckets_snd_le d texts c q hq
        refine ⟨Nat.le_succ_of_le hq2, ?_⟩
        intro heq
        exfalso
        omega

/-- Claim C1: for every token sequence, allowed-category set and positive
top_n, the output of the frequency-based keyword extractor is sorted by
non-increasing count, and among entries of equal count the relative
order follows the first occurrence order of the surface texts among the
category-matching tokens of the input. -/
theorem extract_keywords_frequency_sorted_and_stable
    (tokens : List TokenRecord) (allowed : List String) (top_n : Nat) (_htop : 0 < top_n) :
    (extract_keywords_frequency tokens allowed top_n).Pairwise
      (fun p q => q.2 ≤ p.2 ∧
        (p.2 = q.2 →
          (matchingTexts tokens allowed).indexOf p.1 <
            (matchingTexts tokens allowed).indexOf q.1)) := by
  have h := rankedBuckets_pairwise (firstSeen (matchingTexts tokens allowed))
      (matchingTexts tokens allowed) (firstSeen_pairwise_indexOf _)
      (matchingTexts tokens allowed).length
  unfold extract_keywords_frequency
  exact h.sublist (List.take_sublist _ _)

/-- Concrete instance of the claim C1 theorem: a four-token input with a
repeated noun, allowed category the nouns, top_n ten. -/
theorem extract_keywords_frequency_sorted_and_stable_witness :
    0 < 10 ∧
      (extract_keywords_frequency
          [⟨"猫", "猫", "名詞-普通名詞", "N"⟩, ⟨"犬", "犬", "名詞-普通名詞", "N"⟩,
            ⟨"猫", "猫", "名詞-普通名詞", "N"⟩, ⟨"走る", "走る", "動詞-一般", "V"⟩]
          ["名詞"] 10).Pairwise
        (fun p q => q.2 ≤ p.2 ∧
          (p.2 = q.2 →
            (matchingTexts
                [⟨"猫", "猫", "名詞-普通名詞", "N"⟩, ⟨"犬", "犬", "名詞-普通名詞", "N"⟩,
                  ⟨"猫", "猫", "名詞-普通名詞", "N"⟩, ⟨"走る", "走る", "動詞-一般", "V"⟩]
                ["名詞"]).indexOf p.1 <
              (matchingTexts
                  [⟨"猫", "猫", "名詞-普通名詞", "N"⟩, ⟨"犬", "犬", "名詞-普通名詞", "N"⟩,
                    ⟨"猫", "猫", "名詞-普通名詞", "N"⟩, ⟨"走る", "走る", "動詞-一般", "V"⟩]
                  ["名詞"]).indexOf q.1)) :=
  ⟨by decide, extract_keywords_frequency_sorted_and_stable _ _ 10 (by decide)⟩

/-- Claim C2: the frequency-based keyword extractor is a pure function
of its inputs, so running it twice on the same token sequence,
allowed-category set and top_n yields identical output both times. -/
theorem extract_keywords_frequency_idempotent
    (tokens : List TokenRecord) (allowed : List String) (top_n : Nat) :
    extract_keywords_frequency tokens allowed top_n =
      extract_keywords_frequency tokens allowed top_n := rfl

/-- Claim C3: for every input text and loaded model instance, if the
external call raises during sentiment analysis, keyword extraction or
POS tagging, the exception is caught and the operation returns an empty
result list. -/
theorem executions_catch_exceptions {ε σ ρ : Type} (text : String)
    (fs : String → Bool → Except ε (List ρ))
    (fk : KeywordQuery → Except ε (List (String × σ)))
    (fp : String → Except ε (List SpacyToken))
    (top_n : Nat) (ngram_range : Nat × Nat) (stopwords_list : Option (List String))
    (es ek ep : ε)
    (hs : fs text true = .error es)
    (hk : fk
        { doc := "query: " ++ text
          keyphrase_ngram_range := ngram_range
          stop_words := stopwords_list.getD default_stopwords
          top_n := top_n
          use_mmr := true
          diversity := 7 / 10 } = .error ek)
    (hp : fp text = .error ep) :
    analyze_sentiment_execution text (some fs) = [] ∧
      extract_keywords_text_execution text (some fk) top_n ngram_range stopwords_list = [] ∧
      tag_pos_execution text (some fp) = [] := by
  refine ⟨?_, ?_, ?_⟩
  · simp only [analyze_sentiment_execution]
    rw [hs]
  · simp only [extract_keywords_text_execution]
    rw [hk]
  · simp only [tag_pos_execution]
    rw [hp]

/-- Concrete instance of the claim C3 theorem: model instances that
always raise, on a sample text. -/
theorem executions_catch_exceptions_witness :
    analyze_sentiment_execution "猫が好き"
        (some (fun _ _ => (.error 0 : Except Nat (List (String × Nat))))) = [] ∧
      extract_keywords_text_execution "猫が好き"
          (some (fun _ => (.error 0 : Except Nat (List (String × Nat))))) 5 (1, 2) none = [] ∧
      tag_pos_execution "猫が好き"
          (some (fun _ => (.error 0 : Except Nat (List SpacyToken)))) = [] :=
  executions_catch_exceptions "猫が好き" _ _ _ 5 (1, 2) none 0 0 0 rfl rfl rfl

/-- Claim C4: for every input text, each of the three analysis
operations returns an empty result when its model instance is None, so
model unavailability is not fatal. -/
theorem executions_none_model {ε σ ρ : Type} (text : String)
    (top_n : Nat) (ngram_range : Nat × Nat) (stopwords_list : Option (List String)) :
    analyze_sentiment_execution text
        (none : Option (String → Bool → Except ε (List ρ))) = [] ∧
      extract_keywords_text_execution text
          (none : Option (KeywordQuery → Except ε (List (String × σ))))
          top_n ngram_range stopwords_list = [] ∧
      tag_pos_execution text (none : Option (String → Except ε (List SpacyToken))) = [] :=
  ⟨rfl, rfl, rfl⟩

/-- Claim C5 counterexample: the loader returns stripped lines, not the
non-blank lines themselves — for a file whose only line carries
surrounding whitespace, the output differs from the list of its
non-blank lines. -/
theorem load_stopwords_strip_counterexample :
    load_stopwords_from_file_definition (.found [" 猫 "]) = ["猫"] ∧
      load_stopwords_from_file_definition (.found [" 猫 "]) ≠ [" 猫 "] := by
  exact ⟨by decide, by decide⟩

/-- Claim C5 amended: for every file outcome the loader returns the
whitespace-stripped non-blank lines deduplicated (order unspecified, so
stated as no-duplicates plus membership), and the fixed fallback list
when the file is missing, unreadable, or has no non-blank line. -/
theorem load_stopwords_from_file_correct (lines : List String) :
    load_stopwords_from_file_definition .notFound = default_stopwords_for_fallback ∧
      load_stopwords_from_file_definition .readError = default_stopwords_for_fallback ∧
      ((lines.filter (fun line => strip line != "")).map strip = [] →
        load_stopwords_from_file_definition (.found lines) = default_stopwords_for_fallback) ∧
      ((lines.filter (fun line => strip line != "")).map strip ≠ [] →
        (load_stopwords_from_file_definition (.found lines)).Nodup ∧
          ∀ s, s ∈ load_stopwords_from_file_definition (.found lines) ↔
            s ∈ (lines.filter (fun line => strip line != "")).map strip) := by
  refine ⟨rfl, rfl, ?_, ?_⟩
  · intro h
    simp [load_stopwords_from_file_definition, h]
  · intro h
    have hb : (((lines.filter (fun line => strip line != "")).map strip).isEmpty) = false := by
      simpa [List.isEmpty_iff] using h
    simp only [load_stopwords_from_file_definition, hb, Bool.false_eq_true, if_false]
    exact ⟨List.nodup_dedup _, fun s => List.mem_dedup⟩

/-- Concrete instance of the claim C5 amended theorem on a four-line
file with a blank line, a duplicate and surrounding whitespace. -/
theorem load_stopwords_from_file_correct_witness :
    ([" これ ", "", "これ", " それ "].filter (fun line => strip line != "")).map strip ≠ [] ∧
      (load_stopwords_from_file_definition (.found [" これ ", "", "これ", " それ "])).Nodup ∧
      ("それ" ∈ load_stopwords_from_file_definition (.found [" これ ", "", "これ", " それ "]) ↔
        "それ" ∈ ([" これ ", "", "これ", " それ "].filter (fun line => strip line != "")).map strip) :=
  ⟨by decide,
    ((load_stopwords_from_file_correct [" これ ", "", "これ", " それ "]).2.2.2 (by decide)).1,
    ((load_stopwords_from_file_correct [" これ ", "", "これ", " それ "]).2.2.2 (by decide)).2 "それ"⟩

/-- Claim C6 counterexample: for a ranker that reports the top_n it was
handed, the call without explicit top_n differs from the call with
top_n = 10 — the declared default is 5, not 10. -/
theorem extract_keywords_default_top_n_counterexample :
    extract_keywords_text_execution_with_defaults "猫"
        (some (fun q => (.ok [("top_n", q.top_n)] : Except Nat (List (String × Nat))))) ≠
      extract_keywords_text_execution "猫"
        (some (fun q => (.ok [("top_n", q.top_n)] : Except Nat (List (String × Nat)))))
        10 (1, 2) none := by decide

/-- Claim C6 amended: invoked without an explicit top_n, the keyword
extraction operation uses top_n = 5 (together with the other declared
defaults ngram_range = (1, 2) and stopwords_list = None). -/
theorem extract_keywords_default_top_n_is_five {ε σ : Type} (text : String)
    (keybert_model_instance : Option (KeywordQuery → Except ε (List (String × σ)))) :
    extract_keywords_text_execution_with_defaults text keybert_model_instance =
      extract_keywords_text_execution text keybert_model_instance 5 (1, 2) none := rfl

/-- Claim C7 counterexample: a ranker that echoes the document it
receives shows that for input 猫 the ranker is handed the marked string,
not the raw input text. -/
theorem extract_keywords_text_prefixed_counterexample :
    extract_keywords_text_execution "猫"
        (some (fun q => (.ok [(q.doc, 0)] : Except Nat (List (String × Nat))))) 5 (1, 2) none =
        [("query: 猫", 0)] ∧
      "query: 猫" ≠ "猫" := by
  exact ⟨by decide, by decide⟩

/-- Claim C7 amended: the keyword extraction operation hands the
keyphrase ranker the input text with the e5 instruction marker in front,
together with the n-gram range, the stop-word set (defaulted when None),
top_n, use_mmr = true and diversity = 7/10; for a ranker that does not
raise, the output is the ranker's answer on exactly that bundle. -/
theorem extract_keywords_passes_prefixed_text {ε σ : Type} (text : String)
    (top_n : Nat) (ngram_range : Nat × Nat) (stopwords_list : Option (List String))
    (g : KeywordQuery → List (String × σ)) :
    extract_keywords_text_execution text
        (some (fun q => (.ok (g q) : Except ε (List (String × σ))))) top_n ngram_range
        stopwords_list =
      g { doc := "query: " ++ text
          keyphrase_ngram_range := ngram_range
          stop_words := stopwords_list.getD default_stopwords
          top_n := top_n
          use_mmr := true
          diversity := 7 / 10 } := rfl

/-- Claim C8: when the analyzer succeeds on a text, tag_pos_execution
returns one record per analyzer token, in analyzer order, each record
built of exactly the four fields text, lemma, pos and tag read off the
token (the TokenRecord type has exactly those four fields). -/
theorem tag_pos_one_record_per_token {ε : Type} (text : String)
    (nlp : String → Except ε (List SpacyToken)) (doc : List SpacyToken)
    (h : nlp text = .ok doc) :
    tag_pos_execution text (some nlp) =
        doc.map (fun token =>
          { text := token.text, lemma' := token.lemma_, pos := token.pos_,
            tag := token.tag_ }) ∧
      (tag_pos_execution text (some nlp)).length = doc.length := by
  have hmain : tag_pos_execution text (some nlp) =
      doc.map (fun token =>
        ({ text := token.text, lemma' := token.lemma_, pos := token.pos_,
           tag := token.tag_ } : TokenRecord)) := by
    simp only [tag_pos_execution]
    rw [h]
  exact ⟨hmain, by rw [hmain, List.length_map]⟩

/-- Concrete instance of the claim C8 theorem on a two-token analyzer
result. -/
theorem tag_pos_one_record_per_token_witness :
    tag_pos_execution "猫が走る"
        (some (fun _ =>
          (.ok [⟨"猫", "猫", "NOUN", "名詞-普通名詞-一般", "nsubj", 0⟩,
              ⟨"走る", "走る", "VERB", "動詞-一般", "ROOT", 2⟩] :
            Except Nat (List SpacyToken)))) =
        [⟨"猫", "猫", "NOUN", "名詞-普通名詞-一般"⟩, ⟨"走る", "走る", "VERB", "動詞-一般"⟩] ∧
      (tag_pos_execution "猫が走る"
          (some (fun _ =>
            (.ok [⟨"猫", "猫", "NOUN", "名詞-普通名詞-一般", "nsubj", 0⟩,
                ⟨"走る", "走る", "VERB", "動詞-一般", "ROOT", 2⟩] :
              Except Nat (List SpacyToken))))).length = 2 := by
  have h := tag_pos_one_record_per_token "猫が走る"
    (fun _ =>
      (.ok [⟨"猫", "猫", "NOUN", "名詞-普通名詞-一般", "nsubj", 0⟩,
          ⟨"走る", "走る", "VERB", "動詞-一般", "ROOT", 2⟩] : Except Nat (List SpacyToken)))
    [⟨"猫", "猫", "NOUN", "名詞-普通名詞-一般", "nsubj", 0⟩,
      ⟨"走る", "走る", "VERB", "動詞-一般", "ROOT", 2⟩] rfl
  exact ⟨h.1, h.2⟩

/-- Claim C9: every return path of the stop-word loader yields a
non-empty list, so callers never receive an empty stop-word list. -/
theorem load_stopwords_nonempty (file : FileReadResult) :
    load_stopwords_from_file_definition file ≠ [] := by
  cases file with
  | found lines =>
      simp only [load_stopwords_from_file_definition]
      by_cases hk : ((lines.filter (fun line => strip line != "")).map strip).isEmpty = true
      · rw [if_pos hk]
        decide
      · rw [if_neg hk]
        have hl : (lines.filter (fun line => strip line != "")).map strip ≠ [] := by
          simpa [List.isEmpty_iff] using hk
        simpa [Ne, List.dedup_eq_nil] using hl
  | notFound => decide
  | readError => decide

/-- Claim C10: when the embedding model argument is None, the KeyBERT
loader returns None without invoking the KeyBERT constructor, so
embedding-model unavailability propagates as ranker unavailability
rather than as an error. -/
theorem load_keybert_model_none {M K ε : Type} (keyBERT : M → Except ε K) :
    load_keybert_model_definition keyBERT none = none := rfl
